import Mathlib

/-!
Verification development for the hellomix payment-detection and
exchange-processing pipeline.

The definitions below are a shallow embedding of the Go source:

* `checkPayment` embeds `BlockchainExplorer.CheckPayment` together with the
  balance computations of `GetAddressInfo` (chain observer).
* `getPrices`, `getPrice`, `calculateExchangeRate` embed the corresponding
  methods of `PriceService` (price oracle, three-tier resolution).
* `createTransaction` and its validators embed `TransactionService`
  (request creation and validation).
* `generateAddressWithKey` embeds `WalletManager.GenerateAddressWithKey`.
* `processTransaction` / `settleLoop` embed
  `PaymentProcessor.ProcessTransaction`, and `asyncRun` embeds
  `TransactionService.processTransactionAsync`.

Numeric conventions: Go `float64` amounts are modelled as `ℚ` (the spec
prescribes decimal arithmetic sufficient for 8-decimal BTC precision);
satoshi amounts (`int64`) are modelled as `ℤ`.  External nondeterminism
(network responses, database write success, key generation entropy) is
passed in explicitly as environment records and oracle functions.
-/

/-! ### Chain observer: `pkg/crypto` explorer types and `CheckPayment` -/

/-- Embeds `Stats` (per-address funding/spending statistics of the
blockstream explorer response). -/
structure Stats where
  fundedTxoCount : Int
  fundedTxoSum : Int
  spentTxoCount : Int
  spentTxoSum : Int
  txCount : Int
deriving DecidableEq

/-- Embeds `AddressInfo` (chain and mempool statistics of one address). -/
structure AddressInfo where
  chainStats : Stats
  mempoolStats : Stats
deriving DecidableEq

/-- Embeds the computation `ConfirmedBalance = ChainStats.FundedTxoSum -
ChainStats.SpentTxoSum` performed in `GetAddressInfo`. -/
def confirmedBalance (info : AddressInfo) : Int :=
  info.chainStats.fundedTxoSum - info.chainStats.spentTxoSum

/-- Embeds `UnconfirmedBalance = MempoolStats.FundedTxoSum -
MempoolStats.SpentTxoSum` from `GetAddressInfo`. -/
def unconfirmedBalance (info : AddressInfo) : Int :=
  info.mempoolStats.fundedTxoSum - info.mempoolStats.spentTxoSum

/-- Embeds `TotalReceived = ChainStats.FundedTxoSum +
MempoolStats.FundedTxoSum` from `GetAddressInfo`. -/
def totalReceived (info : AddressInfo) : Int :=
  info.chainStats.fundedTxoSum + info.mempoolStats.fundedTxoSum

/-- Embeds `Vout` (transaction output); only the fields read by
`CheckPayment` are kept. -/
structure Vout where
  scriptPubKeyAddress : String
  value : Int
deriving DecidableEq

/-- Embeds the `Status` struct of an explorer transaction. -/
structure TxChainStatus where
  confirmed : Bool
  blockHeight : Int
deriving DecidableEq

/-- Embeds an explorer `Transaction` (txid, outputs, chain status). -/
structure BTx where
  txid : String
  vout : List Vout
  status : TxChainStatus
deriving DecidableEq

/-- One output check of the `CheckPayment` scan:
`vout.ScriptPubKeyAddress == address && vout.Value >= expectedAmount`. -/
def voutMatches (address : String) (expected : Int) (v : Vout) : Bool :=
  v.scriptPubKeyAddress == address && decide (expected ≤ v.value)

/-- A confirmed transaction carrying an output that pays at least the
expected amount to the address (the confirmed-branch scan condition). -/
def txConfirmedMatch (address : String) (expected : Int) (tx : BTx) : Bool :=
  tx.status.confirmed && tx.vout.any (voutMatches address expected)

/-- An unconfirmed transaction carrying a sufficient output to the address
(the unconfirmed-branch scan condition). -/
def txUnconfirmedMatch (address : String) (expected : Int) (tx : BTx) : Bool :=
  !tx.status.confirmed && tx.vout.any (voutMatches address expected)

/-- The `PaymentTXID` produced by the `CheckPayment` scan loop.  The Go
`break` leaves only the inner `vout` loop, so every later matching
transaction overwrites `status.PaymentTXID`: the result is the txid of the
last match, or `""` when no transaction matches. -/
def lastMatchingTxid (p : BTx → Bool) (txs : List BTx) : String :=
  txs.foldl (fun acc tx => if p tx then tx.txid else acc) ""

/-- Embeds the `PaymentStatus` struct returned by `CheckPayment`. -/
structure PaymentStatusM where
  address : String
  expectedAmount : Int
  totalReceived : Int
  confirmedBalance : Int
  unconfirmedBalance : Int
  status : String
  confirmations : Int
  paymentTXID : String
  transactions : List BTx
deriving DecidableEq

/-- Embeds `BlockchainExplorer.CheckPayment`: classifies the payment state
of `address` against `expected` satoshis from the observed `AddressInfo`
and transaction list.  The confirmed branch sets `Confirmations = 1` both
initially and inside the scan (the block-height reassignment writes the
same constant), so it is always `1` there. -/
def checkPayment (address : String) (expected : Int)
    (info : AddressInfo) (txs : List BTx) : PaymentStatusM :=
  if expected ≤ confirmedBalance info then
    { address := address, expectedAmount := expected
      totalReceived := totalReceived info
      confirmedBalance := confirmedBalance info
      unconfirmedBalance := unconfirmedBalance info
      status := "confirmed", confirmations := 1
      paymentTXID := lastMatchingTxid (txConfirmedMatch address expected) txs
      transactions := txs }
  else if expected ≤ unconfirmedBalance info then
    { address := address, expectedAmount := expected
      totalReceived := totalReceived info
      confirmedBalance := confirmedBalance info
      unconfirmedBalance := unconfirmedBalance info
      status := "unconfirmed", confirmations := 0
      paymentTXID := lastMatchingTxid (txUnconfirmedMatch address expected) txs
      transactions := txs }
  else
    { address := address, expectedAmount := expected
      totalReceived := totalReceived info
      confirmedBalance := confirmedBalance info
      unconfirmedBalance := unconfirmedBalance info
      status := "pending", confirmations := 0
      paymentTXID := ""
      transactions := txs }

/-! ### Price oracle: `PriceService` -/

/-- State of one Redis cache slot for a `price:SYMBOL` key: the key may be
absent (`redis.Get` errors), hold a value that fails to unmarshal, or hold
a price. -/
inductive CacheEntry
  | missing
  | malformed
  | val (price : ℚ)
deriving DecidableEq

/-- Environment of `PriceService`: Redis cache contents, the CoinGecko
response (`none` models a failed upstream call), the `price_caches` table
rows, and success oracles for the database read and the two write paths. -/
structure PriceEnv where
  cache : String → CacheEntry
  api : Option (List (String × ℚ))
  dbRows : List (String × ℚ)
  dbReadOk : Bool
  cacheWriteOk : Bool
  dbWriteOk : Bool

/-- The supported symbol set iterated by `getPricesFromCache`. -/
def currencySymbols : List String :=
  ["BTC", "ETH", "USDT", "USDC", "ADA", "SOL", "MATIC"]

/-- The CoinGecko id to symbol mapping of `fetchPricesFromAPI`. -/
def coinMapping : List (String × String) :=
  [("bitcoin", "BTC"), ("ethereum", "ETH"), ("tether", "USDT"),
   ("usd-coin", "USDC"), ("cardano", "ADA"), ("solana", "SOL"),
   ("polygon", "MATIC")]

/-- Embeds `getPricesFromCache`: any missing key aborts with an error
(`none`); a key whose value fails to unmarshal is skipped (`continue`), so
the returned map may omit symbols. -/
def getPricesFromCache (env : PriceEnv) : Option (List (String × ℚ)) :=
  if currencySymbols.all (fun c => decide (env.cache c ≠ CacheEntry.missing)) then
    some (currencySymbols.filterMap (fun c =>
      match env.cache c with
      | CacheEntry.val q => some (c, q)
      | _ => none))
  else none

/-- The symbol-keyed map built by `fetchPricesFromAPI` from a CoinGecko
response: only coin ids present in the response contribute entries. -/
def mapApiPrices (resp : List (String × ℚ)) : List (String × ℚ) :=
  coinMapping.filterMap (fun p => (resp.lookup p.1).map (fun q => (p.2, q)))

/-- Embeds `fetchPricesFromAPI` (the HTTP call either fails or yields a
response that is remapped to exchange symbols). -/
def fetchPricesFromAPI (env : PriceEnv) : Option (List (String × ℚ)) :=
  env.api.map mapApiPrices

/-- One `Save` of `storePricesInDB`: upsert of a `PriceCache` row keyed by
currency. -/
def upsertPrice (rows : List (String × ℚ)) (c : String) (q : ℚ) :
    List (String × ℚ) :=
  if rows.any (fun r => r.1 == c) then
    rows.map (fun r => if r.1 == c then (c, q) else r)
  else rows ++ [(c, q)]

/-- Embeds `storePricesInDB`: upserts every fetched price into the
`price_caches` table. -/
def storePricesInDB (rows : List (String × ℚ)) (prices : List (String × ℚ)) :
    List (String × ℚ) :=
  prices.foldl (fun acc p => upsertPrice acc p.1 p.2) rows

/-- Embeds `cachePrices`: every fetched price is written to its Redis key. -/
def cacheAfterWrite (cache : String → CacheEntry) (prices : List (String × ℚ)) :
    String → CacheEntry :=
  fun c =>
    match prices.lookup c with
    | some q => CacheEntry.val q
    | none => cache c

/-- The tier-1 test of `GetPrices`: `err == nil && len(cachedPrices) > 0`. -/
def cacheHit (env : PriceEnv) : Option (List (String × ℚ)) :=
  match getPricesFromCache env with
  | some m => if 0 < m.length then some m else none
  | none => none

/-- Tiers 2 and 3 of `GetPrices`: fetch from the API, write results through
to cache and database and return them; on upstream failure fall back to the
`price_caches` table. -/
def getPricesFetch (env : PriceEnv) : Option (List (String × ℚ)) × PriceEnv :=
  match fetchPricesFromAPI env with
  | none => (if env.dbReadOk then some env.dbRows else none, env)
  | some prices =>
      (some prices,
        { env with
          cache := if env.cacheWriteOk then cacheAfterWrite env.cache prices else env.cache
          dbRows := if env.dbWriteOk then storePricesInDB env.dbRows prices else env.dbRows })

/-- Embeds `PriceService.GetPrices`: cache first, then upstream with
write-through, then the database snapshot fallback.  The second component
is the post-call environment (cache and table after write-through). -/
def getPrices (env : PriceEnv) : Option (List (String × ℚ)) × PriceEnv :=
  match cacheHit env with
  | some m => (some m, env)
  | none => getPricesFetch env

/-- Embeds `PriceService.GetPrice`: resolves the full map and looks the
requested symbol up in it; `none` models the `price not found` error. -/
def getPrice (env : PriceEnv) (c : String) : Option ℚ :=
  match (getPrices env).1 with
  | none => none
  | some m => m.lookup c

/-- Embeds `PriceService.CalculateExchangeRate`: conversion through the USD
intermediate, `usdValue = amount * fromPrice; result = usdValue / toPrice`. -/
def calculateExchangeRate (env : PriceEnv) (fromC toC : String) (amount : ℚ) :
    Option ℚ :=
  match (getPrices env).1 with
  | none => none
  | some m =>
      match m.lookup fromC with
      | none => none
      | some fromPrice =>
          match m.lookup toC with
          | none => none
          | some toPrice => some (amount * fromPrice / toPrice)

/-! ### Transaction service: validation and request creation -/

/-- Embeds `models.OutputAddress` (destination address with percentage). -/
structure OutputAddr where
  address : String
  percentage : ℚ
deriving DecidableEq

/-- Embeds `CreateTransactionRequest`. -/
structure CreateReq where
  btcAmount : ℚ
  outputCurrency : String
  outputAddresses : List OutputAddr
deriving DecidableEq

/-- Embeds `isSupportedCurrency` (membership in the hardcoded list). -/
def isSupportedCurrency (c : String) : Bool :=
  (["BTC", "ETH", "USDT", "USDC", "ADA", "SOL", "MATIC"] : List String).contains c

/-- Hex-digit test of `validateEthereumAddress`. -/
def isHexDigit (c : Char) : Bool :=
  (('0' ≤ c) && (c ≤ '9')) || (('a' ≤ c) && (c ≤ 'f')) || (('A' ≤ c) && (c ≤ 'F'))

/-- Embeds `validateEthereumAddress`: length 42, `0x` prefix, hex body. -/
def isEthereumAddress (s : String) : Bool :=
  s.length == 42 && s.toList.take 2 == ['0', 'x'] && (s.toList.drop 2).all isHexDigit

/-- Embeds `validateCardanoAddress`: length window plus Shelley (`addr`) or
Byron (`Ae`/`Dd`) prefix heuristics. -/
def isCardanoAddress (s : String) : Bool :=
  if s.length < 50 || 120 < s.length then false
  else if 4 ≤ s.length && s.toList.take 4 == ['a', 'd', 'd', 'r'] then true
  else if 2 ≤ s.length && (s.toList.take 2 == ['A', 'e'] || s.toList.take 2 == ['D', 'd']) then true
  else false

/-- The base58 alphabet of `validateSolanaAddress`. -/
def base58Chars : List Char :=
  "123456789ABCDEFGHJKLMNPQRSTUVWXYZabcdefghijkmnopqrstuvwxyz".toList

/-- Embeds `validateSolanaAddress`: length 32 to 44, base58 characters. -/
def isSolanaAddress (s : String) : Bool :=
  32 ≤ s.length && s.length ≤ 44 && s.toList.all (fun c => base58Chars.contains c)

/-- Embeds `AddressValidator.ValidateAddress`.  The Bitcoin case delegates
to `btcutil.DecodeAddress`, an external library, so it is abstracted as the
oracle `btcValid`. -/
def validateAddressForCurrency (btcValid : String → Bool) (address currency : String) :
    Bool :=
  match currency with
  | "BTC" => btcValid address
  | "ETH" | "USDT" | "USDC" | "MATIC" => isEthereumAddress address
  | "ADA" => isCardanoAddress address
  | "SOL" => isSolanaAddress address
  | _ => false

/-- The error taxonomy of `CreateTransaction`; the first six constructors
are the validation errors, in the order the checks run. -/
inductive CreateError
  | unsupportedCurrency
  | noAddresses
  | tooManyAddresses
  | emptyAddress (i : Nat)
  | invalidAddress (i : Nat)
  | invalidPercentage (i : Nat)
  | badAllocation
  | addressGenFailed
  | priceUnavailable
  | dbCreateFailed
deriving DecidableEq

/-- The per-address loop of `validateOutputAddresses`: empty string, then
format, then percentage bounds, indices reported 1-based. -/
def validateEach (btcValid : String → Bool) (currency : String) :
    List OutputAddr → Nat → Option CreateError
  | [], _ => none
  | a :: rest, i =>
      if a.address = "" then some (CreateError.emptyAddress i)
      else if validateAddressForCurrency btcValid a.address currency = false then
        some (CreateError.invalidAddress i)
      else if a.percentage ≤ 0 ∨ 100 < a.percentage then
        some (CreateError.invalidPercentage i)
      else validateEach btcValid currency rest (i + 1)

/-- Embeds `validateOutputAddresses`: count bounds first (at least one,
at most seven), then the per-address checks. -/
def validateOutputAddresses (btcValid : String → Bool)
    (addresses : List OutputAddr) (currency : String) : Option CreateError :=
  if addresses.length = 0 then some CreateError.noAddresses
  else if 7 < addresses.length then some CreateError.tooManyAddresses
  else validateEach btcValid currency addresses 1

/-- Embeds `validatePercentageAllocation`: the sum must lie in
[99.9, 100.1]. -/
def validatePercentageAllocation (addresses : List OutputAddr) :
    Option CreateError :=
  let total := addresses.foldl (fun acc a => acc + a.percentage) 0
  if total < 999 / 10 ∨ 1001 / 10 < total then some CreateError.badAllocation
  else none

/-- Embeds `calculateFee`: 0.5 percent default, 0.2 percent for BTC. -/
def calculateFee (btcAmount : ℚ) (currency : String) : ℚ :=
  let feeRate : ℚ := if currency = "BTC" then 2 / 1000 else 5 / 1000
  btcAmount * feeRate

/-- Embeds `calculateEstimatedOutput`: identity for BTC output; otherwise
the converted amount minus the converted fee. -/
def calculateEstimatedOutput (penv : PriceEnv) (btcAmount : ℚ)
    (outputCurrency : String) : Option ℚ :=
  if outputCurrency = "BTC" then some btcAmount
  else
    match calculateExchangeRate penv "BTC" outputCurrency btcAmount with
    | none => none
    | some outputAmount =>
        match calculateExchangeRate penv "BTC" outputCurrency
            (calculateFee btcAmount outputCurrency) with
        | none => none
        | some feeInOutputCurrency => some (outputAmount - feeInOutputCurrency)

/-- The validation prefix of `CreateTransaction` as a single function:
the first violated rule, in the order the code checks them. -/
def firstViolation (btcValid : String → Bool) (req : CreateReq) :
    Option CreateError :=
  if isSupportedCurrency req.outputCurrency = false then
    some CreateError.unsupportedCurrency
  else
    match validateOutputAddresses btcValid req.outputAddresses req.outputCurrency with
    | some e => some e
    | none => validatePercentageAllocation req.outputAddresses

/-- Embeds the fields of `models.Transaction` assigned in
`CreateTransaction` (identifier and timestamps are generated externally and
not modelled). -/
structure TxModel where
  btcAmount : ℚ
  outputCurrency : String
  outputAddresses : List OutputAddr
  paymentAddress : String
  fee : ℚ
  estimatedOutput : ℚ
deriving DecidableEq

/-- Observable side effects of `CreateTransaction`: deposit-address
issuance (`bitcoinService.GenerateAddress`), the database insert, and the
spawned background processing task. -/
inductive CreateEff
  | addressIssued (address : String)
  | persistedTx (tx : TxModel)
  | scheduledBackgroundTask
deriving DecidableEq

/-- Environment of `CreateTransaction`: the generated deposit address
(`none` models key-generation failure), the price environment, and the
database insert success oracle. -/
structure CreateEnv where
  genAddr : Option String
  priceEnv : PriceEnv
  dbCreateOk : Bool

/-- Decidable equality for `Except` results, needed to evaluate the model
on concrete inputs. -/
instance {ε α : Type} [DecidableEq ε] [DecidableEq α] : DecidableEq (Except ε α) :=
  fun a b =>
    match a, b with
    | Except.ok x, Except.ok y => decidable_of_iff (x = y) (by simp)
    | Except.error x, Except.error y => decidable_of_iff (x = y) (by simp)
    | Except.ok _, Except.error _ => isFalse (by simp)
    | Except.error _, Except.ok _ => isFalse (by simp)

/-- Embeds `TransactionService.CreateTransaction`: currency check, address
checks, percentage check, then deposit-address issuance, estimate and fee
computation, persistence, and scheduling of background processing.  The
second component lists the side effects that occurred, in order. -/
def createTransaction (btcValid : String → Bool) (env : CreateEnv)
    (req : CreateReq) : Except CreateError TxModel × List CreateEff :=
  if isSupportedCurrency req.outputCurrency = false then
    (Except.error CreateError.unsupportedCurrency, [])
  else
    match validateOutputAddresses btcValid req.outputAddresses req.outputCurrency with
    | some e => (Except.error e, [])
    | none =>
        match validatePercentageAllocation req.outputAddresses with
        | some e => (Except.error e, [])
        | none =>
            match env.genAddr with
            | none => (Except.error CreateError.addressGenFailed, [])
            | some addr =>
                match calculateEstimatedOutput env.priceEnv req.btcAmount
                    req.outputCurrency with
                | none =>
                    (Except.error CreateError.priceUnavailable,
                     [CreateEff.addressIssued addr])
                | some est =>
                    let tx : TxModel :=
                      { btcAmount := req.btcAmount
                        outputCurrency := req.outputCurrency
                        outputAddresses := req.outputAddresses
                        paymentAddress := addr
                        fee := calculateFee req.btcAmount req.outputCurrency
                        estimatedOutput := est }
                    if env.dbCreateOk then
                      (Except.ok tx,
                       [CreateEff.addressIssued addr, CreateEff.persistedTx tx,
                        CreateEff.scheduledBackgroundTask])
                    else
                      (Except.error CreateError.dbCreateFailed,
                       [CreateEff.addressIssued addr])

/-! ### Address key vault: `WalletManager` and `WalletService` -/

/-- Combined key-storage state: the in-memory `WalletManager.addresses`
map (address to raw private key, key material modelled as `Nat`), and the
persisted `wallets` table rows `(address, encryptedPrivKey, isActive)`
written by `WalletService`. -/
structure VaultState where
  volatile : List (String × Nat)
  walletRows : List (String × String × Bool)
deriving DecidableEq

/-- Embeds `WalletManager.GenerateAddressWithKey`: derives the address from
a freshly generated private key (`derive` abstracts the btcec/btcutil
pipeline) and stores the raw key in the in-memory map.  No other state is
touched: `WalletManager` holds no database handle. -/
def generateAddressWithKey (derive : Nat → String) (freshKey : Nat)
    (st : VaultState) : String × VaultState :=
  let addr := derive freshKey
  (addr, { st with volatile := (addr, freshKey) :: st.volatile })

/-- Embeds `WalletService.StorePrivateKey`: encrypts the key (AES-GCM,
abstracted as `encrypt`) and inserts an active `wallets` row.  Present in
the source but never invoked from any address-issuance path. -/
def storePrivateKey (encrypt : Nat → String) (address : String) (key : Nat)
    (st : VaultState) : VaultState :=
  { st with walletRows := st.walletRows ++ [(address, encrypt key, true)] }

/-! ### Settlement: `PaymentProcessor.ProcessTransaction` and the
time-based simulation `processTransactionAsync` -/

/-- The transaction status constants of `models`. -/
inductive TxStatus
  | pending
  | waiting
  | processing
  | completed
  | failed
  | expired
deriving DecidableEq

/-- Position of each status along the lifecycle order
`pending → waiting → processing → completed`, with the terminal failure
states on top. -/
def statusRank : TxStatus → Nat
  | TxStatus.pending => 0
  | TxStatus.waiting => 1
  | TxStatus.processing => 2
  | TxStatus.completed => 3
  | TxStatus.failed => 4
  | TxStatus.expired => 5

/-- An allowed consecutive pair of status writes: the earlier status is
non-terminal (`completed`, `failed` and `expired` are absorbing) and the
write never moves backward along the lifecycle order. -/
def stepOk (a b : TxStatus) : Prop :=
  statusRank a ≤ 2 ∧ statusRank a ≤ statusRank b

instance (a b : TxStatus) : Decidable (stepOk a b) :=
  inferInstanceAs (Decidable (statusRank a ≤ 2 ∧ statusRank a ≤ statusRank b))

/-- Embeds `BTCToSatoshis` (`int64(btc * 1e8)`, truncation toward zero). -/
def btcToSatoshis (btc : ℚ) : Int :=
  if 0 ≤ btc then ⌊btc * 100000000⌋ else -⌊-btc * 100000000⌋

/-- Embeds `SatoshisToBTC`. -/
def satoshisToBTC (sats : Int) : ℚ :=
  (sats : ℚ) / 100000000

/-- Embeds the fields of a `models.Payment` row created by
`storePaymentInfo` (identifier and detection timestamp generated
externally, not modelled). -/
structure PaymentRec where
  address : String
  amountSats : Int
  amountBTC : ℚ
  txid : String
  confirmations : Int
  status : String
deriving DecidableEq

/-- The `models.Payment` row built by `storePaymentInfo` from a
`PaymentStatus`. -/
def mkPaymentRec (ps : PaymentStatusM) : PaymentRec :=
  { address := ps.address
    amountSats := ps.totalReceived
    amountBTC := satoshisToBTC ps.totalReceived
    txid := ps.paymentTXID
    confirmations := ps.confirmations
    status := ps.status }

/-- The fields of the `models.Transaction` row read by
`ProcessTransaction`; `status` is the value at fetch time (the loop never
re-reads it, so the unconfirmed branch always compares against this
snapshot). -/
structure TxRecord where
  btcAmount : ℚ
  outputCurrency : String
  paymentAddress : String
  status : TxStatus
deriving DecidableEq

/-- Environment of one `ProcessTransaction` run: the price environment,
the explorer observation at each ticker tick until the 30-minute context
deadline (`none` models a `MonitorPayment` error, which the loop logs and
retries), and success oracles for the status updates (indexed by attempt),
the payment-record insert, and the `final_output` update. -/
structure SettleEnv where
  priceEnv : PriceEnv
  polls : List (Option (AddressInfo × List BTx))
  statusWriteOk : Nat → Bool
  storePaymentOk : Bool
  persistFinalOk : Bool

/-- Outcome of one `ProcessTransaction` run: the successful status writes
in order, the payment records created, and the persisted `final_output`. -/
structure SettleRun where
  writes : List TxStatus
  records : List PaymentRec
  finalOutput : Option ℚ
deriving DecidableEq

/-- Embeds `calculateFinalOutput`: current exchange rate minus the asset
fee rate (0.2 percent for BTC, else 0.5 percent). -/
def calculateFinalOutput (penv : PriceEnv) (tx : TxRecord) : Option ℚ :=
  match calculateExchangeRate penv "BTC" tx.outputCurrency tx.btcAmount with
  | none => none
  | some outputAmount =>
      some (outputAmount * (1 - (if tx.outputCurrency = "BTC" then 2 / 1000 else 5 / 1000)))

/-- The polling loop of `ProcessTransaction`.  Exhausting `polls` models
the context deadline (write `expired`, stop).  A monitor error or a
`pending` classification continues.  `unconfirmed` writes `processing`
once per tick while the fetched snapshot status differs from `processing`.
`confirmed` writes `processing`, inserts the payment record, runs
`processExchange` (compute `final_output`, persist it — a persistence
failure is only logged), then writes `failed` or `completed` and stops.
`att` counts status-update attempts for the `statusWriteOk` oracle. -/
def settleLoop (env : SettleEnv) (tx : TxRecord) :
    List (Option (AddressInfo × List BTx)) → Nat → SettleRun
  | [], att =>
      { writes := if env.statusWriteOk att then [TxStatus.expired] else []
        records := [], finalOutput := none }
  | none :: rest, att => settleLoop env tx rest att
  | some (info, txs) :: rest, att =>
      let ps := checkPayment tx.paymentAddress (btcToSatoshis tx.btcAmount) info txs
      if ps.status = "confirmed" then
        let procWrites := if env.statusWriteOk att then [TxStatus.processing] else []
        let recs := if env.storePaymentOk then [mkPaymentRec ps] else []
        match calculateFinalOutput env.priceEnv tx with
        | none =>
            { writes := procWrites ++ (if env.statusWriteOk (att + 1) then [TxStatus.failed] else [])
              records := recs, finalOutput := none }
        | some amt =>
            { writes := procWrites ++ (if env.statusWriteOk (att + 1) then [TxStatus.completed] else [])
              records := recs
              finalOutput := if env.persistFinalOk then some amt else none }
      else if ps.status = "unconfirmed" then
        if tx.status ≠ TxStatus.processing then
          if env.statusWriteOk att then
            let r := settleLoop env tx rest (att + 1)
            { r with writes := TxStatus.processing :: r.writes }
          else settleLoop env tx rest (att + 1)
        else settleLoop env tx rest att
      else settleLoop env tx rest att

/-- Embeds `PaymentProcessor.ProcessTransaction`: write `waiting` (a
failure of this first update aborts the run), then poll until a terminal
outcome or the deadline. -/
def processTransaction (env : SettleEnv) (tx : TxRecord) : SettleRun :=
  if env.statusWriteOk 0 then
    let r := settleLoop env tx env.polls 1
    { r with writes := TxStatus.waiting :: r.writes }
  else { writes := [], records := [], finalOutput := none }

/-- The last successful status write of a run (a request starts at
`pending`, set at creation). -/
def finalStatus (r : SettleRun) : TxStatus :=
  r.writes.getLastD TxStatus.pending

/-- The staged status writes of the time-based simulation
`processTransactionAsync`: each stage write that succeeds advances; a
failing write triggers one `failed` write and stops. -/
def asyncGo (wok : Nat → Bool) : List TxStatus → Nat → List TxStatus
  | [], _ => []
  | s :: rest, n =>
      if wok n then s :: asyncGo wok rest (n + 1)
      else if wok (n + 1) then [TxStatus.failed] else []

/-- Embeds `TransactionService.processTransactionAsync`: sleeps, then
writes `waiting`, `processing`, `completed` in order regardless of any
payment observation. -/
def asyncRun (wok : Nat → Bool) : List TxStatus :=
  asyncGo wok [TxStatus.waiting, TxStatus.processing, TxStatus.completed] 0

/-! ### Helper lemmas -/

/-- The status produced by `CheckPayment` depends only on the balance
comparisons. -/
lemma checkPayment_status_eq (address : String) (expected : Int)
    (info : AddressInfo) (txs : List BTx) :
    (checkPayment address expected info txs).status =
      (if expected ≤ confirmedBalance info then "confirmed"
       else if expected ≤ unconfirmedBalance info then "unconfirmed"
       else "pending") := by
  unfold checkPayment
  by_cases h1 : expected ≤ confirmedBalance info
  · simp [h1]
  · by_cases h2 : expected ≤ unconfirmedBalance info <;> simp [h1, h2]

/-- A scan over transactions none of which matches leaves the accumulator
untouched. -/
lemma lastMatchingTxid_empty_of_no_match (p : BTx → Bool) (txs : List BTx)
    (h : ∀ tx ∈ txs, p tx = false) : lastMatchingTxid p txs = "" := by
  have gen : ∀ (l : List BTx) (acc : String), (∀ tx ∈ l, p tx = false) →
      l.foldl (fun acc tx => if p tx then tx.txid else acc) acc = acc := by
    intro l
    induction l with
    | nil => intro acc _; rfl
    | cons hd tl ih =>
        intro acc hall
        have hhd : p hd = false := hall hd (List.mem_cons_self hd tl)
        simp only [List.foldl_cons, hhd, Bool.false_eq_true, if_false]
        exact ih acc (fun tx ht => hall tx (List.mem_cons_of_mem hd ht))
  exact gen txs "" h

/-! ### C1: payment classification against the expected amount -/

/-- C1 (amended): `CheckPayment` returns `confirmed` iff the confirmed
balance covers the expected amount; it returns `unconfirmed` iff the
confirmed balance falls short and the mempool balance ALONE covers the
expected amount; otherwise `pending`.  (The claim's window
`C < E ≤ C + U` for `unconfirmed` does not match the code, which compares
`U` alone against `E`.) -/
theorem checkPayment_status_trichotomy (address : String) (expected : Int)
    (info : AddressInfo) (txs : List BTx) :
    ((checkPayment address expected info txs).status = "confirmed" ↔
        expected ≤ confirmedBalance info)
  ∧ ((checkPayment address expected info txs).status = "unconfirmed" ↔
        confirmedBalance info < expected ∧ expected ≤ unconfirmedBalance info)
  ∧ ((checkPayment address expected info txs).status = "pending" ↔
        confirmedBalance info < expected ∧ unconfirmedBalance info < expected) := by
  rw [checkPayment_status_eq]
  by_cases h1 : expected ≤ confirmedBalance info <;>
    by_cases h2 : expected ≤ unconfirmedBalance info <;>
      simp [h1, h2] <;> omega

/-- C1 counterexample: confirmed balance 50 and mempool balance 60 against
expected 100. -/
def splitPayInfo : AddressInfo := ⟨⟨1, 50, 0, 0, 1⟩, ⟨1, 60, 0, 0, 1⟩⟩

/-- C1 counterexample: here `C = 50 < 100 = E ≤ C + U = 110`, so the claim
demands classification `unconfirmed`, but `CheckPayment` returns
`pending` because it compares the mempool balance alone (`60 < 100`)
against the expected amount. -/
theorem checkPayment_combined_balance_pending :
    confirmedBalance splitPayInfo < 100
  ∧ (100 : Int) ≤ confirmedBalance splitPayInfo + unconfirmedBalance splitPayInfo
  ∧ (checkPayment "addr" 100 splitPayInfo []).status = "pending"
  ∧ (checkPayment "addr" 100 splitPayInfo []).status ≠ "unconfirmed" := by
  decide

/-! ### C10: aggregate-balance confirmation with no single covering output -/

/-- C10: whenever the confirmed balance covers the expected amount but no
single confirmed transaction has an output paying at least that amount to
the address, `CheckPayment` still reports status `confirmed` with
`Confirmations = 1` and an empty `PaymentTXID`. -/
theorem checkPayment_aggregate_confirmed (address : String) (expected : Int)
    (info : AddressInfo) (txs : List BTx)
    (hbal : expected ≤ confirmedBalance info)
    (hno : ∀ tx ∈ txs, txConfirmedMatch address expected tx = false) :
    (checkPayment address expected info txs).status = "confirmed"
  ∧ (checkPayment address expected info txs).confirmations = 1
  ∧ (checkPayment address expected info txs).paymentTXID = "" := by
  have hl : lastMatchingTxid (txConfirmedMatch address expected) txs = "" :=
    lastMatchingTxid_empty_of_no_match _ txs hno
  unfold checkPayment
  rw [if_pos hbal]
  exact ⟨rfl, rfl, hl⟩

/-- Two confirmed payments of 60 satoshis each to the watched address:
together they cover the expected 100, but neither output does alone. -/
def twoPaymentsInfo : AddressInfo := ⟨⟨2, 120, 0, 0, 2⟩, ⟨0, 0, 0, 0, 0⟩⟩

/-- The transaction list for the two 60-satoshi payments. -/
def twoPaymentsTxs : List BTx :=
  [⟨"tx1", [⟨"addr", 60⟩], ⟨true, 100⟩⟩, ⟨"tx2", [⟨"addr", 60⟩], ⟨true, 101⟩⟩]

/-- C10 witness: the aggregate-confirmation theorem applied to the
two-payment scenario. -/
theorem checkPayment_aggregate_confirmed_witness :
    (checkPayment "addr" 100 twoPaymentsInfo twoPaymentsTxs).status = "confirmed"
  ∧ (checkPayment "addr" 100 twoPaymentsInfo twoPaymentsTxs).confirmations = 1
  ∧ (checkPayment "addr" 100 twoPaymentsInfo twoPaymentsTxs).paymentTXID = "" :=
  checkPayment_aggregate_confirmed "addr" 100 twoPaymentsInfo twoPaymentsTxs
    (by decide) (by decide)

/-! ### C6: BTC to BTC conversion -/

/-- A price environment whose cache holds the scenario prices
`BTC: 45000, ETH: 3200` (other symbols 1). -/
def demoPriceEnv : PriceEnv :=
  { cache := fun c =>
      if c = "BTC" then CacheEntry.val 45000
      else if c = "ETH" then CacheEntry.val 3200 else CacheEntry.val 1
    api := none, dbRows := [], dbReadOk := false
    cacheWriteOk := true, dbWriteOk := true }

/-- The price map `demoPriceEnv` resolves to. -/
def demoPriceMap : List (String × ℚ) :=
  [("BTC", 45000), ("ETH", 3200), ("USDT", 1), ("USDC", 1),
   ("ADA", 1), ("SOL", 1), ("MATIC", 1)]

/-- C6 (amended): for every amount `x` and every resolved price map in
which BTC has a NONZERO price `p`, converting `x` from BTC to BTC returns
exactly `x` (`x * p / p = x`).  With price 0 the division degenerates and
the identity fails, see the counterexample. -/
theorem convertValue_btc_identity (env : PriceEnv) (x p : ℚ)
    (m : List (String × ℚ))
    (hm : (getPrices env).1 = some m) (hp : m.lookup "BTC" = some p)
    (hp0 : p ≠ 0) :
    calculateExchangeRate env "BTC" "BTC" x = some x := by
  unfold calculateExchangeRate
  rw [hm]
  simp only [hp]
  rw [mul_div_assoc, div_self hp0, mul_one]

/-- C6 witness: the identity theorem applied at `x = 7/2` in the demo
price environment. -/
theorem convertValue_btc_identity_witness :
    calculateExchangeRate demoPriceEnv "BTC" "BTC" (7 / 2) = some (7 / 2) :=
  convertValue_btc_identity demoPriceEnv (7 / 2) 45000 demoPriceMap
    (by decide) (by decide) (by norm_num)

/-- A price environment in which BTC resolves to the price 0. -/
def zeroPriceEnv : PriceEnv :=
  { cache := fun c => if c = "BTC" then CacheEntry.val 0 else CacheEntry.val 1
    api := none, dbRows := [], dbReadOk := false
    cacheWriteOk := true, dbWriteOk := true }

/-- The price map `zeroPriceEnv` resolves to. -/
def zeroPriceMap : List (String × ℚ) :=
  [("BTC", 0), ("ETH", 1), ("USDT", 1), ("USDC", 1), ("ADA", 1), ("SOL", 1), ("MATIC", 1)]

/-- C6 counterexample: BTC is resolvable (the lookup succeeds, price 0),
yet `ConvertValue(BTC→BTC, 1)` does not return 1: the code computes
`1 * 0 / 0`, which is not the identity (NaN in the Go float arithmetic, 0
in this exact-arithmetic model).  The claim quantifies over every price
table in which BTC is resolvable, so it fails on this table. -/
theorem convertValue_btc_zero_price :
    getPrice zeroPriceEnv "BTC" = some 0
  ∧ calculateExchangeRate zeroPriceEnv "BTC" "BTC" 1 ≠ some 1 := by
  constructor
  · decide
  · have hm : (getPrices zeroPriceEnv).1 = some zeroPriceMap := by decide
    have hp : zeroPriceMap.lookup "BTC" = some 0 := by decide
    unfold calculateExchangeRate
    rw [hm]
    simp only [hp]
    intro h
    have : (1 : ℚ) * 0 / 0 = 1 := Option.some.inj h
    norm_num at this

/-! ### C5: quoted fee and estimated output -/

/-- C5: the quoted fee rate is 0.5 percent by default and 0.2 percent for
BTC output; for a non-BTC output whose prices resolve to `pB` (BTC) and
`pC` (output), the estimate equals `(btcAmount * pB * (1 - 0.005)) / pC`;
for BTC output the conversion is the identity; and the concrete scenario
0.01 BTC to ETH at prices BTC 45000, ETH 3200 yields 0.139921875, which is
within 0.0001 of 0.1399. -/
theorem estimatedOutput_formula :
    (∀ (env : PriceEnv) (x : ℚ) (cur : String) (m : List (String × ℚ)) (pB pC : ℚ),
        (getPrices env).1 = some m → m.lookup "BTC" = some pB →
        m.lookup cur = some pC → cur ≠ "BTC" →
        calculateEstimatedOutput env x cur = some (x * pB * (1 - 5 / 1000) / pC))
  ∧ (∀ (env : PriceEnv) (x : ℚ), calculateEstimatedOutput env x "BTC" = some x)
  ∧ (∀ (x : ℚ) (cur : String), cur ≠ "BTC" → calculateFee x cur = x * (5 / 1000))
  ∧ (∀ (x : ℚ), calculateFee x "BTC" = x * (2 / 1000))
  ∧ calculateEstimatedOutput demoPriceEnv (1 / 100) "ETH" = some (1791 / 12800)
  ∧ |(1791 : ℚ) / 12800 - 1399 / 10000| < 1 / 10000 := by
  refine ⟨?_, ?_, ?_, ?_, ?_, ?_⟩
  · intro env x cur m pB pC hm hB hC hcur
    unfold calculateEstimatedOutput calculateExchangeRate calculateFee
    rw [if_neg hcur, hm]
    simp only [hB, hC, if_neg hcur]
    have : x * pB / pC - x * (5 / 1000) * pB / pC = x * pB * (1 - 5 / 1000) / pC := by
      rw [div_sub_div_same]
      congr 1
      ring
    rw [this]
  · intro env x
    unfold calculateEstimatedOutput
    rw [if_pos rfl]
  · intro x cur hcur
    unfold calculateFee
    rw [if_neg hcur]
  · intro x
    unfold calculateFee
    rw [if_pos rfl]
  · have h1 : (getPrices demoPriceEnv).1 = some demoPriceMap := by decide
    have hlB : demoPriceMap.lookup "BTC" = some 45000 := by decide
    have hlE : demoPriceMap.lookup "ETH" = some 3200 := by decide
    have hne : ("ETH" = "BTC") = False := by decide
    simp only [calculateEstimatedOutput, calculateExchangeRate, calculateFee, h1, hlB, hlE,
      hne, if_false]
    norm_num
  · have h : (1791 : ℚ) / 12800 - 1399 / 10000 = 7 / 320000 := by norm_num
    rw [h, abs_of_pos (by norm_num)]
    norm_num

/-- C5 witness: the formula part of the theorem applied at 0.03 BTC to ETH
in the demo price environment. -/
theorem estimatedOutput_formula_witness :
    calculateEstimatedOutput demoPriceEnv (3 / 100) "ETH"
      = some (3 / 100 * 45000 * (1 - 5 / 1000) / 3200) :=
  estimatedOutput_formula.1 demoPriceEnv (3 / 100) "ETH" demoPriceMap 45000 3200
    (by decide) (by decide) (by decide) (by decide)

/-! ### C8: three-tier price resolution -/

/-- C8 (amended): `GetPrices` resolves in tier order — (1) the cache when
all keys are present and at least one value parses, returned without
touching the environment; (2) otherwise the upstream API, whose mapped
result is returned after being written through to the cache and to the
snapshot table (when the respective writes succeed); (3) on upstream
failure, the snapshot table read.  A `GetPrice` lookup fails exactly when
the map produced by the first applicable tier lacks the symbol — later
tiers are NOT consulted for individually missing symbols. -/
theorem getPrices_tier_resolution (env : PriceEnv) :
    (∀ m, cacheHit env = some m → getPrices env = (some m, env))
  ∧ (∀ resp, cacheHit env = none → env.api = some resp →
       (getPrices env).1 = some (mapApiPrices resp)
     ∧ (env.cacheWriteOk = true →
          (getPrices env).2.cache = cacheAfterWrite env.cache (mapApiPrices resp))
     ∧ (env.dbWriteOk = true →
          (getPrices env).2.dbRows = storePricesInDB env.dbRows (mapApiPrices resp)))
  ∧ (cacheHit env = none → env.api = none →
       (getPrices env).1 = (if env.dbReadOk then some env.dbRows else none))
  ∧ (∀ c, getPrice env c = none ↔
       ((getPrices env).1 = none ∨
        ∃ m, (getPrices env).1 = some m ∧ m.lookup c = none)) := by
  refine ⟨?_, ?_, ?_, ?_⟩
  · intro m hm
    unfold getPrices
    rw [hm]
  · intro resp hch hapi
    unfold getPrices getPricesFetch fetchPricesFromAPI
    rw [hch, hapi]
    refine ⟨rfl, ?_, ?_⟩
    · intro hcw; simp [hcw]
    · intro hdw; simp [hdw]
  · intro hch hapi
    unfold getPrices getPricesFetch fetchPricesFromAPI
    rw [hch, hapi]
    rfl
  · intro c
    unfold getPrice
    rcases h : (getPrices env).1 with _ | m
    · simp
    · simp only [h]
      constructor
      · intro hl; exact Or.inr ⟨m, rfl, hl⟩
      · rintro (hnone | ⟨m2, hm2, hl⟩)
        · exact absurd hnone (by simp)
        · obtain rfl : m = m2 := Option.some.inj hm2
          exact hl

/-- Tier-2 scenario environment: every cache key missing, the upstream
response carries only bitcoin, and the snapshot table holds an ETH row. -/
def partialApiEnv : PriceEnv :=
  { cache := fun _ => CacheEntry.missing
    api := some [("bitcoin", 45000)]
    dbRows := [("ETH", 3200)], dbReadOk := true
    cacheWriteOk := true, dbWriteOk := true }

/-- C8 witness: the tier-2 clause of the resolution theorem applied to the
partial upstream response. -/
theorem getPrices_tier_resolution_witness :
    (getPrices partialApiEnv).1 = some (mapApiPrices [("bitcoin", 45000)]) :=
  (((getPrices_tier_resolution partialApiEnv).2.1 [("bitcoin", 45000)]
    (by decide) rfl)).1

/-- C8 counterexample: with the cache unusable and the upstream call
succeeding but returning only bitcoin, `GetPrice("ETH")` fails even though
the third tier (the snapshot table) holds an ETH price — so a lookup can
fail although not all three tiers yield nothing for the symbol. -/
theorem priceLookup_skips_snapshot_store :
    getPrice partialApiEnv "ETH" = none
  ∧ partialApiEnv.dbRows.lookup "ETH" = some 3200
  ∧ getPrice partialApiEnv "BTC" = some 45000 := by
  decide

/-! ### C7: fail-fast validation on request creation -/

/-- C7: whenever any validation rule is violated, `CreateTransaction`
returns the error naming the first violated rule (in check order:
supported currency, address count and per-address checks, percentage
allocation) and performs NO side effect — no deposit-address issuance, no
persistence, no scheduled background task.  In particular an input with 0
output addresses, or with 8 or more, always has a violated rule. -/
theorem createRequest_failfast (btcValid : String → Bool) (env : CreateEnv)
    (req : CreateReq) :
    (∀ e, firstViolation btcValid req = some e →
        createTransaction btcValid env req = (Except.error e, []))
  ∧ (req.outputAddresses.length = 0 ∨ 8 ≤ req.outputAddresses.length →
        (firstViolation btcValid req).isSome) := by
  constructor
  · intro e he
    unfold firstViolation at he
    unfold createTransaction
    by_cases hsc : isSupportedCurrency req.outputCurrency = false
    · rw [if_pos hsc] at he ⊢
      rw [Option.some.inj he]
    · rw [if_neg hsc] at he ⊢
      rcases hv : validateOutputAddresses btcValid req.outputAddresses req.outputCurrency
        with _ | e1
      · rw [hv] at he
        simp only at he
        rcases hp : validatePercentageAllocation req.outputAddresses with _ | e2
        · rw [hp] at he; exact absurd he (by simp)
        · rw [hp] at he
          simp only [hv, hp]
          rw [Option.some.inj he]
      · rw [hv] at he
        obtain rfl : e1 = e := Option.some.inj he
        simp only [hv]
  · intro hlen
    unfold firstViolation
    by_cases hsc : isSupportedCurrency req.outputCurrency = false
    · rw [if_pos hsc]; rfl
    · rw [if_neg hsc]
      unfold validateOutputAddresses
      rcases hlen with h0 | h8
      · rw [if_pos h0]; rfl
      · have hne : ¬ req.outputAddresses.length = 0 := by omega
        have h7 : 7 < req.outputAddresses.length := by omega
        rw [if_neg hne, if_pos h7]
        rfl

/-- A creation environment for the validation witnesses. -/
def demoCreateEnv : CreateEnv :=
  { genAddr := some "1DepositAddr", priceEnv := demoPriceEnv, dbCreateOk := true }

/-- A creation request with zero output addresses. -/
def zeroAddrReq : CreateReq := ⟨1 / 100, "ETH", []⟩

/-- A creation request with eight output addresses. -/
def eightAddrReq : CreateReq :=
  ⟨1 / 100, "ETH",
   [⟨"a1", 10⟩, ⟨"a2", 10⟩, ⟨"a3", 10⟩, ⟨"a4", 10⟩,
    ⟨"a5", 10⟩, ⟨"a6", 10⟩, ⟨"a7", 20⟩, ⟨"a8", 20⟩]⟩

/-- C7 witness: the fail-fast theorem applied to the zero-address request
(error, no effects) and to the eight-address request (a rule is
violated). -/
theorem createRequest_failfast_witness :
    createTransaction (fun _ => true) demoCreateEnv zeroAddrReq
      = (Except.error CreateError.noAddresses, [])
  ∧ (firstViolation (fun _ => true) eightAddrReq).isSome :=
  ⟨(createRequest_failfast (fun _ => true) demoCreateEnv zeroAddrReq).1
      CreateError.noAddresses (by decide),
   (createRequest_failfast (fun _ => true) demoCreateEnv eightAddrReq).2
      (Or.inr (by decide))⟩

/-! ### C3: deposit-address issuance and key persistence -/

/-- C3 (behaviour the code actually has): `GenerateAddressWithKey` returns
the derived address after storing the RAW private key in the in-memory
`addresses` map only; the persisted `wallets` table is untouched.  The
encrypting, persisting path `WalletService.StorePrivateKey` exists (last
conjunct) but is never invoked on the issuance path, contradicting both
the claim and the repository's own documentation. -/
theorem generateAddress_plaintext_no_persist (derive : Nat → String)
    (encrypt : Nat → String) (k : Nat) (address : String) (st : VaultState) :
    ((generateAddressWithKey derive k st).2).walletRows = st.walletRows
  ∧ ((generateAddressWithKey derive k st).2).volatile
      = ((generateAddressWithKey derive k st).1, k) :: st.volatile
  ∧ ((generateAddressWithKey derive k st).2).volatile.lookup
      (generateAddressWithKey derive k st).1 = some k
  ∧ (storePrivateKey encrypt address k st).walletRows
      = st.walletRows ++ [(address, encrypt k, true)] := by
  refine ⟨rfl, rfl, ?_, rfl⟩
  simp [generateAddressWithKey, List.lookup]

/-! ### Settlement lemmas -/

/-- A poll outcome that does not classify as `confirmed`: either a monitor
error or an observation whose confirmed balance falls short of the
expected satoshis. -/
def pollNotConfirmed (tx : TxRecord) : Option (AddressInfo × List BTx) → Prop
  | none => True
  | some (info, _) => confirmedBalance info < btcToSatoshis tx.btcAmount

instance (tx : TxRecord) (ob : Option (AddressInfo × List BTx)) :
    Decidable (pollNotConfirmed tx ob) :=
  match ob with
  | none => isTrue trivial
  | some (info, _) =>
      inferInstanceAs (Decidable (confirmedBalance info < btcToSatoshis tx.btcAmount))

/-- When no poll ever classifies as confirmed and every status update
succeeds, the polling loop ends with an `expired` write, creates no
payment record and sets no final output. -/
lemma settleLoop_no_confirm (env : SettleEnv) (tx : TxRecord)
    (hw : ∀ n, env.statusWriteOk n = true) :
    ∀ (polls : List (Option (AddressInfo × List BTx))) (att : Nat),
      (∀ ob ∈ polls, pollNotConfirmed tx ob) →
      ∃ w, (settleLoop env tx polls att).writes = w ++ [TxStatus.expired]
        ∧ (settleLoop env tx polls att).records = []
        ∧ (settleLoop env tx polls att).finalOutput = none := by
  intro polls
  induction polls with
  | nil =>
      intro att _
      refine ⟨[], ?_⟩
      simp [settleLoop, hw att]
  | cons ob rest ih =>
      intro att hall
      match ob with
      | none =>
          simp only [settleLoop]
          exact ih att (fun o ho => hall o (List.mem_cons_of_mem none ho))
      | some (info, txs) =>
          have hnc : confirmedBalance info < btcToSatoshis tx.btcAmount :=
            hall _ (List.mem_cons_self _ _)
          have hst : (checkPayment tx.paymentAddress (btcToSatoshis tx.btcAmount)
              info txs).status ≠ "confirmed" := by
            rw [checkPayment_status_eq]
            rw [if_neg (not_le.mpr hnc)]
            by_cases h2 : btcToSatoshis tx.btcAmount ≤ unconfirmedBalance info
            · rw [if_pos h2]; decide
            · rw [if_neg h2]; decide
          have htail : ∀ ob ∈ rest, pollNotConfirmed tx ob :=
            fun o ho => hall o (List.mem_cons_of_mem _ ho)
          simp only [settleLoop, if_neg hst]
          by_cases hu : (checkPayment tx.paymentAddress (btcToSatoshis tx.btcAmount)
              info txs).status = "unconfirmed"
          · rw [if_pos hu]
            by_cases hts : tx.status ≠ TxStatus.processing
            · rw [if_pos hts]
              rw [hw att, if_pos rfl]
              obtain ⟨w, hwr, hrec, hfo⟩ := ih (att + 1) htail
              exact ⟨TxStatus.processing :: w, by simp [hwr], by simp [hrec], by simp [hfo]⟩
            · rw [if_neg hts]
              exact ih att htail
          · rw [if_neg hu]
            exact ih att htail

/-- When the polls before some tick never classify as confirmed, that tick
does, and every status update succeeds, the loop finalizes: a failing
output computation yields a final `failed` write with no final output,
while a successful computation yields a final `completed` write whose
persisted final output depends only on the persistence oracle. -/
lemma settleLoop_confirmed_outcome (env : SettleEnv) (tx : TxRecord)
    (hw : ∀ n, env.statusWriteOk n = true)
    (info : AddressInfo) (txs : List BTx)
    (hc : btcToSatoshis tx.btcAmount ≤ confirmedBalance info) :
    ∀ (pre rest : List (Option (AddressInfo × List BTx))) (att : Nat),
      (∀ ob ∈ pre, pollNotConfirmed tx ob) →
      (calculateFinalOutput env.priceEnv tx = none →
        ∃ w, (settleLoop env tx (pre ++ some (info, txs) :: rest) att).writes
              = w ++ [TxStatus.failed]
          ∧ (settleLoop env tx (pre ++ some (info, txs) :: rest) att).finalOutput = none)
    ∧ (∀ q, calculateFinalOutput env.priceEnv tx = some q →
        ∃ w, (settleLoop env tx (pre ++ some (info, txs) :: rest) att).writes
              = w ++ [TxStatus.completed]
          ∧ (settleLoop env tx (pre ++ some (info, txs) :: rest) att).finalOutput
              = (if env.persistFinalOk then some q else none)) := by
  intro pre
  induction pre with
  | nil =>
      intro rest att _
      have hst : (checkPayment tx.paymentAddress (btcToSatoshis tx.btcAmount)
          info txs).status = "confirmed" := by
        rw [checkPayment_status_eq, if_pos hc]
      constructor
      · intro hcf
        refine ⟨if env.statusWriteOk att then [TxStatus.processing] else [], ?_, ?_⟩ <;>
          simp [settleLoop, hst, hcf, hw (att + 1)]
      · intro q hcf
        refine ⟨if env.statusWriteOk att then [TxStatus.processing] else [], ?_, ?_⟩ <;>
          simp [settleLoop, hst, hcf, hw (att + 1)]
  | cons ob pres ih =>
      intro rest att hall
      have htail : ∀ o ∈ pres, pollNotConfirmed tx o :=
        fun o ho => hall o (List.mem_cons_of_mem _ ho)
      match ob with
      | none =>
          simp only [List.cons_append, settleLoop]
          exact ih rest att htail
      | some (info2, txs2) =>
          have hnc : confirmedBalance info2 < btcToSatoshis tx.btcAmount :=
            hall _ (List.mem_cons_self _ _)
          have hst : (checkPayment tx.paymentAddress (btcToSatoshis tx.btcAmount)
              info2 txs2).status ≠ "confirmed" := by
            rw [checkPayment_status_eq, if_neg (not_le.mpr hnc)]
            by_cases h2 : btcToSatoshis tx.btcAmount ≤ unconfirmedBalance info2
            · rw [if_pos h2]; decide
            · rw [if_neg h2]; decide
          simp only [List.cons_append, settleLoop, if_neg hst]
          by_cases hu : (checkPayment tx.paymentAddress (btcToSatoshis tx.btcAmount)
              info2 txs2).status = "unconfirmed"
          · rw [if_pos hu]
            by_cases hts : tx.status ≠ TxStatus.processing
            · rw [if_pos hts, hw att, if_pos rfl]
              obtain ⟨h1, h2⟩ := ih rest (att + 1) htail
              constructor
              · intro hcf
                obtain ⟨w, hwr, hfo⟩ := h1 hcf
                exact ⟨TxStatus.processing :: w, by simp [hwr], by simp [hfo]⟩
              · intro q hcf
                obtain ⟨w, hwr, hfo⟩ := h2 q hcf
                exact ⟨TxStatus.processing :: w, by simp [hwr], by simp [hfo]⟩
            · rw [if_neg hts]
              exact ih rest att htail
          · rw [if_neg hu]
            exact ih rest att htail

/-- Every write sequence produced by the polling loop, started from a
non-terminal status, is a chain of allowed steps. -/
lemma settleLoop_chain (env : SettleEnv) (tx : TxRecord) :
    ∀ (polls : List (Option (AddressInfo × List BTx))) (att : Nat) (cur : TxStatus),
      statusRank cur ≤ 2 →
      List.Chain stepOk cur (settleLoop env tx polls att).writes := by
  intro polls
  induction polls with
  | nil =>
      intro att cur hcur
      by_cases hwa : env.statusWriteOk att = true
      · simp only [settleLoop, hwa, if_true]
        exact List.Chain.cons ⟨hcur, le_trans hcur (by decide)⟩ List.Chain.nil
      · simp only [settleLoop, hwa, Bool.false_eq_true, if_false]
        exact List.Chain.nil
  | cons ob rest ih =>
      intro att cur hcur
      match ob with
      | none =>
          simp only [settleLoop]
          exact ih att cur hcur
      | some (info, txs) =>
          simp only [settleLoop]
          by_cases hcf : (checkPayment tx.paymentAddress (btcToSatoshis tx.btcAmount)
              info txs).status = "confirmed"
          · rw [if_pos hcf]
            rcases h : calculateFinalOutput env.priceEnv tx with _ | amt <;>
              simp only [h] <;>
              by_cases h1 : env.statusWriteOk att = true <;>
                by_cases h2 : env.statusWriteOk (att + 1) = true <;>
                  simp only [h1, h2, if_true, Bool.false_eq_true, if_false,
                    List.cons_append, List.nil_append] <;>
                  first
                    | exact List.Chain.cons ⟨hcur, le_trans hcur (by decide)⟩
                        (List.Chain.cons ⟨by decide, by decide⟩ List.Chain.nil)
                    | exact List.Chain.cons ⟨hcur, le_trans hcur (by decide)⟩ List.Chain.nil
                    | exact List.Chain.nil
          · rw [if_neg hcf]
            by_cases hu : (checkPayment tx.paymentAddress (btcToSatoshis tx.btcAmount)
                info txs).status = "unconfirmed"
            · rw [if_pos hu]
              by_cases hts : tx.status ≠ TxStatus.processing
              · rw [if_pos hts]
                by_cases h1 : env.statusWriteOk att = true
                · simp only [h1, if_true]
                  exact List.Chain.cons ⟨hcur, le_trans hcur (by decide)⟩
                    (ih (att + 1) TxStatus.processing (by decide))
                · simp only [h1, Bool.false_eq_true, if_false]
                  exact ih (att + 1) cur hcur
              · rw [if_neg hts]
                exact ih att cur hcur
            · rw [if_neg hu]
              exact ih att cur hcur

/-- Every write sequence of the time-based simulation is a chain of
allowed steps. -/
lemma asyncRun_chain (wok : Nat → Bool) :
    List.Chain stepOk TxStatus.pending (asyncRun wok) := by
  by_cases h0 : wok 0 = true <;> by_cases h1 : wok 1 = true <;>
    by_cases h2 : wok 2 = true <;> by_cases h3 : wok 3 = true <;>
      simp only [asyncRun, asyncGo, h0, h1, h2, h3, if_true, Bool.false_eq_true, if_false] <;>
      first
        | exact List.Chain.cons (by decide)
            (List.Chain.cons (by decide) (List.Chain.cons (by decide) List.Chain.nil))
        | exact List.Chain.cons (by decide) (List.Chain.cons (by decide) List.Chain.nil)
        | exact List.Chain.cons (by decide) List.Chain.nil
        | exact List.Chain.nil

/-! ### C9: status-write monotonicity -/

/-- C9: starting from the creation status `pending`, every status-write
sequence produced by `ProcessTransaction` (for any price environment,
observation sequence and write-success oracle) and every sequence produced
by `processTransactionAsync` is monotone along
`pending → waiting → processing → completed`, with `completed`, `failed`
and `expired` absorbing: each consecutive write starts from a non-terminal
status and never decreases the lifecycle rank. -/
theorem status_write_monotonicity (env : SettleEnv) (tx : TxRecord)
    (wok : Nat → Bool) :
    List.Chain stepOk TxStatus.pending (processTransaction env tx).writes
  ∧ List.Chain stepOk TxStatus.pending (asyncRun wok) := by
  constructor
  · unfold processTransaction
    by_cases h0 : env.statusWriteOk 0 = true
    · simp only [h0, if_true]
      exact List.Chain.cons (by decide)
        (settleLoop_chain env tx env.polls 1 TxStatus.waiting (by decide))
    · simp only [h0, Bool.false_eq_true, if_false]
      exact List.Chain.nil
  · exact asyncRun_chain wok

/-! ### C4: the watch window and the expired status -/

/-- The `ProcessTransaction` path behaves as the claim states: when no
poll within the watch window classifies as confirmed and the status writes
succeed, the run ends `expired`, creates no payment record and never sets
`final_output`. -/
lemma watchWindow_expired (env : SettleEnv) (tx : TxRecord)
    (hw : ∀ n, env.statusWriteOk n = true)
    (hnc : ∀ ob ∈ env.polls, pollNotConfirmed tx ob) :
    finalStatus (processTransaction env tx) = TxStatus.expired
  ∧ (processTransaction env tx).records = []
  ∧ (processTransaction env tx).finalOutput = none := by
  obtain ⟨w, hwr, hrec, hfo⟩ := settleLoop_no_confirm env tx hw env.polls 1 hnc
  unfold processTransaction
  rw [hw 0, if_pos rfl]
  refine ⟨?_, by simp [hrec], by simp [hfo]⟩
  show (TxStatus.waiting :: (settleLoop env tx env.polls 1).writes).getLastD
      TxStatus.pending = TxStatus.expired
  rw [hwr]
  rw [show TxStatus.waiting :: (w ++ [TxStatus.expired])
      = (TxStatus.waiting :: w) ++ [TxStatus.expired] from rfl]
  exact List.getLastD_concat _ _ _

/-- C4 (what the wired code actually does): the background task started by
`CreateTransaction` is `processTransactionAsync`, whose status progression
is a function of timers and write successes alone — it takes no payment
observation at all.  With all writes succeeding it ends `completed`, and
`expired` is never written, even though the deposit address received no
funds.  (`ProcessTransaction` implements the claimed behaviour, see
`watchWindow_expired`, but nothing in the repository invokes it.) -/
theorem asyncRun_completes_without_payment :
    asyncRun (fun _ => true)
      = [TxStatus.waiting, TxStatus.processing, TxStatus.completed]
  ∧ TxStatus.expired ∉ asyncRun (fun _ => true) := by
  constructor
  · decide
  · decide

/-! ### C2: final settlement failure handling -/

/-- C2 (amended): suppose the polls reach a confirmed classification with
all status writes succeeding.  If the final-output computation (step 1)
fails, the run ends `failed` with no final output, as the claim states.
If the computation succeeds but the persistence of `final_output`
(step 2) fails, the failure is only logged: the run still ends
`completed`, with `final_output` unset — not `failed` as claimed.
Polling stops in both cases (the run is finished). -/
theorem settlement_failure_outcomes (env : SettleEnv) (tx : TxRecord)
    (info : AddressInfo) (txs : List BTx)
    (pre rest : List (Option (AddressInfo × List BTx)))
    (hw : ∀ n, env.statusWriteOk n = true)
    (hpolls : env.polls = pre ++ some (info, txs) :: rest)
    (hpre : ∀ ob ∈ pre, pollNotConfirmed tx ob)
    (hc : btcToSatoshis tx.btcAmount ≤ confirmedBalance info) :
    (calculateFinalOutput env.priceEnv tx = none →
        finalStatus (processTransaction env tx) = TxStatus.failed
      ∧ (processTransaction env tx).finalOutput = none)
  ∧ (∀ q, calculateFinalOutput env.priceEnv tx = some q →
        env.persistFinalOk = false →
        finalStatus (processTransaction env tx) = TxStatus.completed
      ∧ (processTransaction env tx).finalOutput = none) := by
  obtain ⟨hfail, hok⟩ :=
    settleLoop_confirmed_outcome env tx hw info txs hc pre rest 1 hpre
  constructor
  · intro hcf
    obtain ⟨w, hwr, hfo⟩ := hfail hcf
    rw [← hpolls] at hwr hfo
    unfold processTransaction
    rw [hw 0, if_pos rfl]
    refine ⟨?_, by simp [hfo]⟩
    show (TxStatus.waiting :: (settleLoop env tx env.polls 1).writes).getLastD
        TxStatus.pending = TxStatus.failed
    rw [hwr]
    rw [show TxStatus.waiting :: (w ++ [TxStatus.failed])
        = (TxStatus.waiting :: w) ++ [TxStatus.failed] from rfl]
    exact List.getLastD_concat _ _ _
  · intro q hcf hpf
    obtain ⟨w, hwr, hfo⟩ := hok q hcf
    rw [← hpolls] at hwr hfo
    rw [hpf] at hfo
    simp only [Bool.false_eq_true, if_false] at hfo
    unfold processTransaction
    rw [hw 0, if_pos rfl]
    refine ⟨?_, by simp [hfo]⟩
    show (TxStatus.waiting :: (settleLoop env tx env.polls 1).writes).getLastD
        TxStatus.pending = TxStatus.completed
    rw [hwr]
    rw [show TxStatus.waiting :: (w ++ [TxStatus.completed])
        = (TxStatus.waiting :: w) ++ [TxStatus.completed] from rfl]
    exact List.getLastD_concat _ _ _

/-- A price environment in which all three tiers fail (empty cache, failed
upstream call, failed snapshot read), so every conversion fails. -/
def failingPriceEnv : PriceEnv :=
  { cache := fun _ => CacheEntry.missing
    api := none, dbRows := [], dbReadOk := false
    cacheWriteOk := true, dbWriteOk := true }

/-- An all-zero address observation (confirmed balance 0). -/
def zeroObs : AddressInfo := ⟨⟨0, 0, 0, 0, 0⟩, ⟨0, 0, 0, 0, 0⟩⟩

/-- A fetched transaction row with amount 0 (its expected satoshis are 0,
so the zero observation already classifies as confirmed). -/
def zeroAmtTx : TxRecord := ⟨0, "ETH", "1DepositAddr", TxStatus.pending⟩

/-- A settlement environment whose single poll is confirmed but whose
price environment makes the final-output computation fail. -/
def calcFailEnv : SettleEnv :=
  { priceEnv := failingPriceEnv
    polls := [some (zeroObs, [])]
    statusWriteOk := fun _ => true
    storePaymentOk := true
    persistFinalOk := true }

/-- C2 witness: the failure theorem applied to a run whose step-1
computation fails — the request ends `failed` with no final output. -/
theorem settlement_failure_outcomes_witness :
    finalStatus (processTransaction calcFailEnv zeroAmtTx) = TxStatus.failed
  ∧ (processTransaction calcFailEnv zeroAmtTx).finalOutput = none :=
  (settlement_failure_outcomes calcFailEnv zeroAmtTx zeroObs [] [] []
      (fun _ => rfl) rfl (by simp)
      (by simp [btcToSatoshis, zeroAmtTx, confirmedBalance, zeroObs])).1
    (by decide)

/-- The demo transaction row: 0.1 BTC to ETH. -/
def demoTx : TxRecord := ⟨1 / 10, "ETH", "1DepositAddr", TxStatus.pending⟩

/-- An observation that fully funds the 0.1 BTC deposit (10000000
satoshis confirmed). -/
def fundedObs : AddressInfo := ⟨⟨1, 10000000, 0, 0, 1⟩, ⟨0, 0, 0, 0, 0⟩⟩

/-- A settlement environment whose single poll is confirmed, whose prices
resolve, and whose `final_output` database update fails. -/
def persistFailEnv : SettleEnv :=
  { priceEnv := demoPriceEnv
    polls := [some (fundedObs, [])]
    statusWriteOk := fun _ => true
    storePaymentOk := true
    persistFinalOk := false }

/-- C2 counterexample: step 1 succeeds but the persistence of
`final_output` (step 2) fails, and the run still writes
`waiting, processing, completed` — `failed` is never written, the status
ends `completed` and `final_output` stays unset.  The claim requires a
transition to `failed` in this situation. -/
theorem finalOutput_persist_failure_completes :
    (processTransaction persistFailEnv demoTx).writes
      = [TxStatus.waiting, TxStatus.processing, TxStatus.completed]
  ∧ (processTransaction persistFailEnv demoTx).finalOutput = none
  ∧ TxStatus.failed ∉ (processTransaction persistFailEnv demoTx).writes := by
  have hE : btcToSatoshis demoTx.btcAmount = 10000000 := by
    norm_num [btcToSatoshis, demoTx]
  have hCF : calculateFinalOutput demoPriceEnv demoTx = some (1791 / 1280) := by
    have h1 : (getPrices demoPriceEnv).1 = some demoPriceMap := by decide
    have hlB : demoPriceMap.lookup "BTC" = some 45000 := by decide
    have hlE : demoPriceMap.lookup "ETH" = some 3200 := by decide
    have hne : (demoTx.outputCurrency = "BTC") = False := by decide
    have hne2 : ("ETH" = "BTC") = False := by decide
    have hcur : demoTx.outputCurrency = "ETH" := rfl
    have hamt : demoTx.btcAmount = 1 / 10 := rfl
    simp only [calculateFinalOutput, calculateExchangeRate, h1, hcur, hamt, hlB, hlE,
      hne, hne2, if_false]
    norm_num
  have hPS : (checkPayment demoTx.paymentAddress 10000000 fundedObs []).status
      = "confirmed" := by decide
  have hpolls : persistFailEnv.polls = [some (fundedObs, [])] := rfl
  have hwok : ∀ n, persistFailEnv.statusWriteOk n = true := fun _ => rfl
  have hpe : persistFailEnv.priceEnv = demoPriceEnv := rfl
  have hsp : persistFailEnv.storePaymentOk = true := rfl
  have hpf : persistFailEnv.persistFinalOk = false := rfl
  have hmain : (processTransaction persistFailEnv demoTx).writes
      = [TxStatus.waiting, TxStatus.processing, TxStatus.completed] := by
    simp only [processTransaction, hpolls, settleLoop, hE, hPS, hCF, hwok, hpe, hsp, hpf,
      if_true]
    simp
  refine ⟨hmain, ?_, ?_⟩
  · simp only [processTransaction, hpolls, settleLoop, hE, hPS, hCF, hwok, hpe, hsp, hpf,
      if_true]
    simp
  · rw [hmain]
    decide
